import Mathlib

/-!
Verification development for `browser_use/llm/logger_wrapper.py`: a shallow
embedding of the audit-logging wrapper around a chat-completion client, and
proofs about its sanitization, fingerprinting, redaction and invocation paths.

Python runtime values exchanged by the wrapper are modelled by `PyVal`:
scalars, lists, string-keyed dicts (association lists in insertion order, as
Python dicts are ordered and duplicate-free), and opaque objects.  An opaque
object `PyVal.obj dump dictm repr` records whether it exposes a callable
`model_dump` method (`dump = some r`: calling it yields `r`, where
`r = some v` returns `v` and `r = none` raises), likewise a `dict` method,
and its `str()` representation.
-/

namespace LoggerWrapper

/-- Model of a Python runtime value as seen by the logger wrapper. -/
inductive PyVal where
  /-- Python `None`. -/
  | none : PyVal
  /-- Python `bool`. -/
  | bool (b : Bool) : PyVal
  /-- Python `int`. -/
  | int (n : Int) : PyVal
  /-- Python `str`. -/
  | str (s : String) : PyVal
  /-- Python `list`. -/
  | list (xs : List PyVal) : PyVal
  /-- Python `dict` with string keys, in insertion order. -/
  | dict (kvs : List (String × PyVal)) : PyVal
  /-- An opaque object: optional `model_dump` method, optional `dict`
  method (each `some none` if calling it raises), and its `str()` form. -/
  | obj (dump : Option (Option PyVal)) (dictm : Option (Option PyVal)) (rep : String) : PyVal
  deriving Repr

/-- Python `d.get(k)` on a string-keyed dict: value of the (unique) entry
with key `k`, if any. -/
def alookup (k : String) : List (String × PyVal) → Option PyVal
  | [] => Option.none
  | kv :: t => if kv.1 == k then some kv.2 else alookup k t

/-- The test `obj.get("type") == "image_url"` from `_strip_image_urls`:
Python `==` between a value and the string literal. -/
def isImgTag (v : Option PyVal) : Bool :=
  match v with
  | some (.str s) => s == "image_url"
  | _ => false

mutual

/-- `_strip_image_urls` (logger_wrapper.py lines 21-47): recursively remove
`image_url` payloads from message structures. -/
def _strip_image_urls : PyVal → PyVal
  | .dict kvs =>
    if isImgTag (alookup "type" kvs) then
      -- image content part: keep only the `type` entries
      .dict (kvs.filter (fun kv => kv.1 == "type"))
    else
      .dict (stripEntries kvs)
  | .list xs => .list (stripList xs)
  | v => v

/-- Elementwise `_strip_image_urls` over a Python list. -/
def stripList : List PyVal → List PyVal
  | [] => []
  | x :: t => _strip_image_urls x :: stripList t

/-- Dict recursion of `_strip_image_urls`: skip `image_url` keys, strip the
remaining values. -/
def stripEntries : List (String × PyVal) → List (String × PyVal)
  | [] => []
  | kv :: t =>
    if kv.1 == "image_url" then stripEntries t
    else (kv.1, _strip_image_urls kv.2) :: stripEntries t

end

mutual

/-- `_to_jsonable` (logger_wrapper.py lines 50-65): best-effort conversion to
a JSON-serializable value.  A `model_dump`/`dict` call that raises is caught
by the surrounding `except` and degrades to `str(obj)`. -/
def _to_jsonable : PyVal → PyVal
  | .obj dump dictm rep =>
    match dump with
    | some (some d) => d
    | some Option.none => .str rep      -- model_dump() raised
    | Option.none =>
      match dictm with
      | some (some d) => d
      | some Option.none => .str rep    -- dict() raised
      | Option.none => .str rep         -- final fallback: str(obj)
  | .list xs => .list (jsonableList xs)
  | .dict kvs => .dict (jsonableEntries kvs)
  | v => v                              -- scalar passthrough

/-- Elementwise `_to_jsonable` over a Python list. -/
def jsonableList : List PyVal → List PyVal
  | [] => []
  | x :: t => _to_jsonable x :: jsonableList t

/-- Valuewise `_to_jsonable` over a Python dict. -/
def jsonableEntries : List (String × PyVal) → List (String × PyVal)
  | [] => []
  | kv :: t => (kv.1, _to_jsonable kv.2) :: jsonableEntries t

end

/-- One iteration of the loop in `_serialize_messages` (lines 73-80):
`none` models the `model_dump()`/`dict()` call raising, which aborts the
whole `try` block. -/
def serElem (m : PyVal) : Option PyVal :=
  match m with
  | .obj (some r) _ _ =>
    match r with
    | some d => some (_strip_image_urls (_to_jsonable d))
    | Option.none => Option.none
  | .obj Option.none (some r) _ =>
    match r with
    | some d => some (_strip_image_urls (_to_jsonable d))
    | Option.none => Option.none
  | m => some (_strip_image_urls (_to_jsonable m))

/-- The accumulation loop of `_serialize_messages`. -/
def serList : List PyVal → Option (List PyVal)
  | [] => some []
  | m :: t =>
    match serElem m, serList t with
    | some v, some vs => some (v :: vs)
    | _, _ => Option.none

/-- `_serialize_messages` (lines 68-84): serialize messages into a JSONable
structure omitting `image_url` payloads; any exception in the loop falls back
to `_strip_image_urls(_to_jsonable(messages))`. -/
def _serialize_messages (messages : PyVal) : PyVal :=
  match messages with
  | .list ms =>
    match serList ms with
    | some out => .list out
    | Option.none => _strip_image_urls (_to_jsonable (.list ms))
  | m => _strip_image_urls (_to_jsonable m)

/-- Does `needle` occur as a contiguous run inside the character list?
Models Python's `s in lk` substring test. -/
def hasSub (needle : List Char) : List Char → Bool
  | [] => needle.isEmpty
  | c :: t => needle.isPrefixOf (c :: t) || hasSub needle t

/-- Python `sub in s` on strings. -/
def strContains (s sub : String) : Bool := hasSub sub.data s.data

/-- The credential-like substrings checked by `_redact` (line 103). -/
def sensitiveSubs : List String := ["api_key", "apikey", "authorization", "auth", "token"]

/-- Is a call-option key credential-like (case-insensitive substring match)? -/
def isSensitive (k : String) : Bool :=
  sensitiveSubs.any (fun s => strContains k.toLower s)

/-- `_redact` (lines 97-107): replace the value of every credential-like key
with the fixed marker; `Option.none` models passing Python `None`. -/
def _redact (d : Option (List (String × PyVal))) : List (String × PyVal) :=
  match d with
  | Option.none => []
  | some l =>
    if l.isEmpty then []
    else l.map (fun kv =>
      if isSensitive kv.1 then (kv.1, .str "***REDACTED***") else kv)

/-! ### `json.dumps(..., sort_keys=True, ensure_ascii=False, default=str)` -/

/-- JSON escaping of one character (`ensure_ascii=False`: non-ASCII kept). -/
def escChar (c : Char) : String :=
  if c = '\\' then "\\\\"
  else if c = '"' then "\\\""
  else if c = '\n' then "\\n"
  else if c = '\r' then "\\r"
  else if c = '\t' then "\\t"
  else if c.toNat == 8 then "\\b"
  else if c.toNat == 12 then "\\f"
  else if c.toNat < 32 then
    "\\u00" ++ String.mk [hexDigit (c.toNat / 16), hexDigit (c.toNat % 16)]
  else String.mk [c]
where
  /-- Lowercase hexadecimal digit for a nibble. -/
  hexDigit (n : Nat) : Char :=
    if n < 10 then Char.ofNat (48 + n) else Char.ofNat (87 + n)

/-- A JSON string literal for `s`. -/
def jstr (s : String) : String :=
  "\"" ++ String.join (s.data.map escChar) ++ "\""

/-- Comma-join JSON items (default `json.dumps` item separator `", "`). -/
def joinComma (l : List String) : String :=
  String.intercalate ", " l

/-- Insert a rendered entry into a key-sorted list (used to model
`sort_keys=True`, which orders dict items by their key string). -/
def insertPair (p : String × String) : List (String × String) → List (String × String)
  | [] => [p]
  | q :: t => if p.1 < q.1 then p :: q :: t else q :: insertPair p t

/-- Sort rendered dict entries by key, as `sort_keys=True` does. -/
def sortPairs : List (String × String) → List (String × String)
  | [] => []
  | p :: t => insertPair p (sortPairs t)

mutual

/-- `json.dumps(v, sort_keys=True, ensure_ascii=False, default=str)`: the
canonical text hashed by `_hash_request` (line 93).  A non-serializable
object is rendered through `default=str`, i.e. as the JSON string of its
`str()` form. -/
def dumpVal : PyVal → String
  | .none => "null"
  | .bool b => if b then "true" else "false"
  | .int n => toString n
  | .str s => jstr s
  | .obj _ _ rep => jstr rep
  | .list xs => "[" ++ joinComma (dumpList xs) ++ "]"
  | .dict kvs =>
    "\x7b" ++ joinComma ((sortPairs (dumpEntries kvs)).map
      (fun p => jstr p.1 ++ ": " ++ p.2)) ++ "\x7d"

/-- Render each list element. -/
def dumpList : List PyVal → List String
  | [] => []
  | x :: t => dumpVal x :: dumpList t

/-- Render each dict entry's value, keeping the raw key for sorting. -/
def dumpEntries : List (String × PyVal) → List (String × String)
  | [] => []
  | kv :: t => (kv.1, dumpVal kv.2) :: dumpEntries t

end

/-! ### `.encode("utf-8")` and `hashlib.sha256(...).hexdigest()` -/

/-- UTF-8 bytes of one code point. -/
def utf8Char (c : Char) : List Nat :=
  let n := c.toNat
  if n < 0x80 then [n]
  else if n < 0x800 then [0xC0 + n / 0x40, 0x80 + n % 0x40]
  else if n < 0x10000 then
    [0xE0 + n / 0x1000, 0x80 + n / 0x40 % 0x40, 0x80 + n % 0x40]
  else
    [0xF0 + n / 0x40000, 0x80 + n / 0x1000 % 0x40, 0x80 + n / 0x40 % 0x40,
      0x80 + n % 0x40]

/-- `s.encode("utf-8")` as a byte list. -/
def utf8Bytes (s : String) : List Nat :=
  s.data.flatMap utf8Char

namespace Sha256

/-- 32-bit right rotation on a word below `2^32`. -/
def rotr (n x : Nat) : Nat := (x / 2 ^ n + x * 2 ^ (32 - n)) % 2 ^ 32

/-- `Ch(x,y,z)`. -/
def ch (x y z : Nat) : Nat := (x &&& y) ^^^ ((x ^^^ 0xffffffff) &&& z)

/-- `Maj(x,y,z)`. -/
def maj (x y z : Nat) : Nat := (x &&& y) ^^^ (x &&& z) ^^^ (y &&& z)

/-- `Σ₀`. -/
def bigS0 (x : Nat) : Nat := rotr 2 x ^^^ rotr 13 x ^^^ rotr 22 x

/-- `Σ₁`. -/
def bigS1 (x : Nat) : Nat := rotr 6 x ^^^ rotr 11 x ^^^ rotr 25 x

/-- `σ₀`. -/
def smallS0 (x : Nat) : Nat := rotr 7 x ^^^ rotr 18 x ^^^ x / 2 ^ 3

/-- `σ₁`. -/
def smallS1 (x : Nat) : Nat := rotr 17 x ^^^ rotr 19 x ^^^ x / 2 ^ 10

/-- The 64 round constants of FIPS 180-4 (decimal). -/
def K : List Nat :=
  [1116352408, 1899447441, 3049323471, 3921009573,
   961987163, 1508970993, 2453635748, 2870763221,
   3624381080, 310598401, 607225278, 1426881987,
   1925078388, 2162078206, 2614888103, 3248222580,
   3835390401, 4022224774, 264347078, 604807628,
   770255983, 1249150122, 1555081692, 1996064986,
   2554220882, 2821834349, 2952996808, 3210313671,
   3336571891, 3584528711, 113926993, 338241895,
   666307205, 773529912, 1294757372, 1396182291,
   1695183700, 1986661051, 2177026350, 2456956037,
   2730485921, 2820302411, 3259730800, 3345764771,
   3516065817, 3600352804, 4094571909, 275423344,
   430227734, 506948616, 659060556, 883997877,
   958139571, 1322822218, 1537002063, 1747873779,
   1955562222, 2024104815, 2227730452, 2361852424,
   2428436474, 2756734187, 3204031479, 3329325298]

/-- Eight-word hash state. -/
structure St where
  a : Nat
  b : Nat
  c : Nat
  d : Nat
  e : Nat
  f : Nat
  g : Nat
  h : Nat

/-- Initial hash state (decimal). -/
def iv : St :=
  ⟨1779033703, 3144134277, 1013904242, 2773480762,
   1359893119, 2600822924, 528734635, 1541459225⟩

/-- FIPS 180-4 §5.1.1 padding: `0x80`, zeros to 56 mod 64, then the 64-bit
big-endian bit length. -/
def pad (msg : List Nat) : List Nat :=
  let len := msg.length
  let bitLen := 8 * len
  msg ++ [0x80] ++ List.replicate ((119 - len % 64) % 64) 0 ++
    [bitLen / 2 ^ 56 % 256, bitLen / 2 ^ 48 % 256, bitLen / 2 ^ 40 % 256,
     bitLen / 2 ^ 32 % 256, bitLen / 2 ^ 24 % 256, bitLen / 2 ^ 16 % 256,
     bitLen / 2 ^ 8 % 256, bitLen % 256]

/-- Split the padded message into 64-byte blocks. -/
def blocks (l : List Nat) : List (List Nat) :=
  if h : l = [] then []
  else l.take 64 :: blocks (l.drop 64)
termination_by l.length
decreasing_by
  simp only [List.length_drop]
  exact Nat.sub_lt (List.length_pos.mpr h) (by decide)

/-- The first 16 words of the message schedule, big-endian from the block. -/
def initW (block : List Nat) : List Nat :=
  (List.range 16).map fun t =>
    block.getD (4 * t) 0 * 2 ^ 24 + block.getD (4 * t + 1) 0 * 2 ^ 16 +
      block.getD (4 * t + 2) 0 * 2 ^ 8 + block.getD (4 * t + 3) 0

/-- Extend the message schedule to 64 words. -/
def extendW (w : List Nat) : List Nat :=
  (List.range 48).foldl
    (fun w _ =>
      let t := w.length
      w ++ [(smallS1 (w.getD (t - 2) 0) + w.getD (t - 7) 0 +
        smallS0 (w.getD (t - 15) 0) + w.getD (t - 16) 0) % 2 ^ 32])
    w

/-- One round of the compression function, with round constant `k` and
schedule word `wt`. -/
def round (st : St) (kw : Nat × Nat) : St :=
  let t1 := (st.h + bigS1 st.e + ch st.e st.f st.g + kw.1 + kw.2) % 2 ^ 32
  let t2 := (bigS0 st.a + maj st.a st.b st.c) % 2 ^ 32
  ⟨(t1 + t2) % 2 ^ 32, st.a, st.b, st.c, (st.d + t1) % 2 ^ 32, st.e, st.f, st.g⟩

/-- Process one block: 64 rounds, then add to the incoming state mod `2^32`. -/
def compress (st : St) (block : List Nat) : St :=
  let fin := (K.zip (extendW (initW block))).foldl round st
  ⟨(st.a + fin.a) % 2 ^ 32, (st.b + fin.b) % 2 ^ 32, (st.c + fin.c) % 2 ^ 32,
   (st.d + fin.d) % 2 ^ 32, (st.e + fin.e) % 2 ^ 32, (st.f + fin.f) % 2 ^ 32,
   (st.g + fin.g) % 2 ^ 32, (st.h + fin.h) % 2 ^ 32⟩

/-- Lowercase hex digit of a nibble. -/
def hexChar (n : Nat) : Char :=
  if n < 10 then Char.ofNat (48 + n) else Char.ofNat (87 + n)

/-- Eight lowercase hex characters of one 32-bit word, most significant
nibble first. -/
def wordHex (w : Nat) : String :=
  String.mk ((List.range 8).map fun i => hexChar (w / 16 ^ (7 - i) % 16))

/-- Hex rendering of the final eight-word state. -/
def stHex (st : St) : String :=
  wordHex st.a ++ wordHex st.b ++ wordHex st.c ++ wordHex st.d ++
    wordHex st.e ++ wordHex st.f ++ wordHex st.g ++ wordHex st.h

/-- `hashlib.sha256(bs).hexdigest()`: the 64-character lowercase hex digest
of a byte list. -/
def sha256hex (msg : List Nat) : String :=
  stHex ((blocks (pad msg)).foldl compress iv)

end Sha256

/-- The `payload` dict built by `_hash_request` (lines 88-92): model,
sanitized messages, and call options.  `kwargs or {}` maps an empty/absent
dict to `{}`, which the list model already represents as `[]`. -/
def hashPayload (model : String) (messages : PyVal) (kwargs : List (String × PyVal)) :
    List (String × PyVal) :=
  [("model", .str model), ("messages", _serialize_messages messages),
   ("kwargs", .dict kwargs)]

/-- `_hash_request` (lines 87-94): sha256 hex digest of the canonical JSON of
the payload. -/
def _hash_request (model : String) (messages : PyVal) (kwargs : List (String × PyVal)) : String :=
  Sha256.sha256hex (utf8Bytes (dumpVal (.dict (hashPayload model messages kwargs))))

/-! ### Timestamps, artifact naming and `_write_markdown_log` -/

/-- A UTC wall-clock instant, as read by `datetime.utcnow()`. -/
structure Timestamp where
  year : Nat
  month : Nat
  day : Nat
  hour : Nat
  minute : Nat
  second : Nat
  micro : Nat

/-- Zero-pad a decimal rendering to `w` digits (as `strftime` does). -/
def padNum (w n : Nat) : String :=
  let s := toString n
  String.mk (List.replicate (w - s.length) '0') ++ s

/-- `utcnow().strftime("%Y%m%d-%H%M%S-%f")[:-3]` (line 119): UTC timestamp
to millisecond precision (the `[:-3]` drops the last three microsecond
digits). -/
def formatTs (t : Timestamp) : String :=
  padNum 4 t.year ++ padNum 2 t.month ++ padNum 2 t.day ++ "-" ++
    padNum 2 t.hour ++ padNum 2 t.minute ++ padNum 2 t.second ++ "-" ++
    ((padNum 6 t.micro).take 3)

/-- The artifact filename `f"{ts}-{model}-{short}.md"` (lines 119-121), with
`short = cache_key[:8]`. -/
def logFileName (ts : Timestamp) (model : String) (cacheKey : String) : String :=
  formatTs ts ++ "-" ++ model ++ "-" ++ cacheKey.take 8 ++ ".md"

/-- The persisted artifact of one call, at the structural level of
`_write_markdown_log`: the filename and the sanitized request/response
records that are rendered into the markdown body. -/
structure LogRecord where
  /-- Artifact filename within the log directory. -/
  fileName : String
  /-- `cache_key` header field. -/
  cacheKey : String
  /-- `model` field of the sanitized request. -/
  model : String
  /-- `messages` field of the sanitized request. -/
  reqMessages : PyVal
  /-- `kwargs` field of the sanitized request (after `_redact`). -/
  reqKwargs : List (String × PyVal)
  /-- `timestamp` of the sanitized request (call start). -/
  startTime : String
  /-- `timestamp` of the sanitized response (call end). -/
  endTime : String
  /-- `duration_ms` of the sanitized response. -/
  durationMs : Option Int
  /-- `usage` field of the sanitized response. -/
  respUsage : PyVal
  /-- `content` field of the sanitized response. -/
  respContent : PyVal
  /-- `error` field of the sanitized response (`None` on success). -/
  respError : Option String

/-- `_write_markdown_log` (lines 110-158) as a record builder: the artifact
it persists, given the wall clock `ts` read at line 119.  `req` is the pair
(messages, kwargs) and `resp` the triple (content, usage, error) of the
caller's dicts. -/
def _write_markdown_log (ts : Timestamp) (cacheKey model : String)
    (reqMessages : PyVal) (reqKwargs : Option (List (String × PyVal)))
    (respContent respUsage : PyVal) (respError : Option String)
    (startTime endTime : String) (durationMs : Option Int) : LogRecord :=
  { fileName := logFileName ts model cacheKey
    cacheKey := cacheKey
    model := model
    reqMessages := _serialize_messages reqMessages
    reqKwargs := _redact reqKwargs
    startTime := startTime
    endTime := endTime
    durationMs := durationMs
    respUsage := respUsage
    respContent := respContent
    respError := respError }

/-! ### The wrapper class: identity accessors and `ainvoke` -/

/-- The inner client's identity attributes: `Option.none` models a missing
attribute (so `getattr(inner, attr, default)` yields the default). -/
structure InnerClient where
  provider : Option String
  name : Option String
  model : Option String
  model_name : Option String

/-- `LLMLoggerWrapper.provider` (lines 171-173). -/
def wrapperProvider (c : InnerClient) : String :=
  c.provider.getD "unknown"

/-- `LLMLoggerWrapper.name` (lines 175-177). -/
def wrapperName (c : InnerClient) : String :=
  c.name.getD (c.model.getD "unknown")

/-- `LLMLoggerWrapper.model` (lines 179-181). -/
def wrapperModel (c : InnerClient) : String :=
  c.model.getD (c.model_name.getD "unknown")

/-- `LLMLoggerWrapper.model_name` (lines 183-185). -/
def wrapperModelName (c : InnerClient) : String :=
  c.model_name.getD (c.model.getD "unknown")

/-- The inner client's successful `ainvoke` result (`ChatInvokeCompletion`):
its `usage` and `completion` attributes as read by `getattr(result, _, None)`
(a missing attribute is already collapsed to `None`, i.e. `PyVal.none`). -/
structure InvokeRes where
  usage : PyVal
  completion : PyVal

/-- Lines 203-205: `usage = getattr(result, "usage", None)`, then
`usage = usage.model_dump()` if it has one.  `.error ()` models the
(unprotected) `model_dump()` call raising. -/
def extractUsage : PyVal → Except Unit PyVal
  | .obj (some r) _ _ =>
    match r with
    | some d => .ok d
    | Option.none => .error ()
  | u => .ok u

/-- Lines 207-212: the `completion` preprocessing — skipped when `None`,
otherwise `model_dump()` if available, else `dict()` if available. -/
def extractCompletion : PyVal → Except Unit PyVal
  | .none => .ok .none
  | .obj (some r) _ _ =>
    match r with
    | some d => .ok d
    | Option.none => .error ()
  | .obj Option.none (some r) _ =>
    match r with
    | some d => .ok d
    | Option.none => .error ()
  | c => .ok c

/-- The environment of one `ainvoke` call: everything the wrapper reads from
the outside world.  `w1`/`w2` are the outcomes of the first and second
`_write_markdown_log` attempts (`some e`: the write — directory resolution,
`mkdir` or `write_text` — raises `e`); `t1`/`t2` the wall clock at those
writes; `eDump` the exception raised by an unprotected
`usage.model_dump()`/`completion.model_dump()` call, should one raise. -/
structure Env (E : Type) where
  strE : E → String
  eDump : E
  w1 : Option E
  w2 : Option E
  t1 : Timestamp
  t2 : Timestamp
  startTime : String
  endTime : String
  /-- `_now_iso()` as re-read at line 222 when the `except` block runs. -/
  endTimeErr : String
  durationMs : Option Int

/-- The caller-visible outcome of `ainvoke` together with the artifacts that
were durably written. -/
structure AinvokeOut (E : Type) where
  outcome : Except E InvokeRes
  logs : List LogRecord

/-- The `except Exception as e:` block of `ainvoke` (lines 221-226): write an
error artifact (response content/usage `None`, error `str(e)`, no
`duration_ms` in `meta`), then re-raise `e`; if that write itself raises,
its exception propagates instead and nothing is persisted. -/
def exceptBlock {E : Type} (env : Env E) (ts : Timestamp) (w : Option E)
    (cacheKey model : String) (messages : PyVal) (e : E) : AinvokeOut E :=
  match w with
  | Option.none =>
    { outcome := .error e
      logs := [_write_markdown_log ts cacheKey model messages (some [])
        .none .none (some (env.strE e)) env.startTime env.endTimeErr Option.none] }
  | some e' => { outcome := .error e', logs := [] }

/-- `LLMLoggerWrapper.ainvoke` (lines 187-226).  `inner` is the outcome of
the wrapped client's `ainvoke`; all other effects are in `env`.  The first
write performed in a run uses `env.w1`/`env.t1`, a second one (only reached
when the success-path write raises) uses `env.w2`/`env.t2`. -/
def ainvoke {E : Type} (env : Env E) (client : InnerClient) (messages : PyVal)
    (inner : Except E InvokeRes) : AinvokeOut E :=
  let model := wrapperModelName client
  let cacheKey := _hash_request model messages []
  match inner with
  | .error e => exceptBlock env env.t1 env.w1 cacheKey model messages e
  | .ok r =>
    match extractUsage r.usage with
    | .error _ => exceptBlock env env.t1 env.w1 cacheKey model messages env.eDump
    | .ok usage =>
      match extractCompletion r.completion with
      | .error _ => exceptBlock env env.t1 env.w1 cacheKey model messages env.eDump
      | .ok completion =>
        match env.w1 with
        | Option.none =>
          { outcome := .ok r
            logs := [_write_markdown_log env.t1 cacheKey model messages (some [])
              (_to_jsonable completion) (_to_jsonable usage) Option.none
              env.startTime env.endTime env.durationMs] }
        | some e1 =>
          -- the success-path write raised; its exception is caught by the
          -- `except` block, which logs it and re-raises it
          exceptBlock env env.t2 env.w2 cacheKey model messages e1

/-! ### Well-formedness: Python dicts are duplicate-free -/

/-- A Python dict cannot hold two entries with the same key. -/
def keysNodup : List (String × PyVal) → Bool
  | [] => true
  | kv :: t => !(t.any (fun q => q.1 == kv.1)) && keysNodup t

mutual

/-- A `PyVal` is well-formed when every dict in it has duplicate-free keys —
an invariant of every value a Python runtime can produce. -/
def wf : PyVal → Bool
  | .list xs => wfList xs
  | .dict kvs => keysNodup kvs && wfEntries kvs
  | _ => true

/-- Well-formedness of all elements. -/
def wfList : List PyVal → Bool
  | [] => true
  | x :: t => wf x && wfList t

/-- Well-formedness of all entry values. -/
def wfEntries : List (String × PyVal) → Bool
  | [] => true
  | kv :: t => wf kv.2 && wfEntries t

end

/-! ### Image-payload predicates (claim C3) -/

mutual

/-- Does an `"image_url"` key occur anywhere in the tree of mappings and
lists? -/
def hasImageKey : PyVal → Bool
  | .list xs => hasImageKeyList xs
  | .dict kvs => hasImageKeyEntries kvs
  | _ => false

/-- `hasImageKey` over list elements. -/
def hasImageKeyList : List PyVal → Bool
  | [] => false
  | x :: t => hasImageKey x || hasImageKeyList t

/-- `hasImageKey` over dict entries (key itself, or inside the value). -/
def hasImageKeyEntries : List (String × PyVal) → Bool
  | [] => false
  | kv :: t => kv.1 == "image_url" || hasImageKey kv.2 || hasImageKeyEntries t

end

mutual

/-- Does the value contain an image content part: a mapping whose `type` is
`"image_url"`, or an `"image_url"` key, at any nesting depth inside mappings
and lists? -/
def hasImagePart : PyVal → Bool
  | .list xs => hasImagePartList xs
  | .dict kvs => isImgTag (alookup "type" kvs) || hasImagePartEntries kvs
  | _ => false

/-- `hasImagePart` over list elements. -/
def hasImagePartList : List PyVal → Bool
  | [] => false
  | x :: t => hasImagePart x || hasImagePartList t

/-- `hasImagePart` over dict entries. -/
def hasImagePartEntries : List (String × PyVal) → Bool
  | [] => false
  | kv :: t => kv.1 == "image_url" || hasImagePart kv.2 || hasImagePartEntries t

end

/-- Is the value a content part tagged as an image (`type == "image_url"`)? -/
def isImgTagged : PyVal → Bool
  | .dict kvs => isImgTag (alookup "type" kvs)
  | _ => false

/-- A filter by a predicate that `any` refutes is empty. -/
theorem filter_eq_nil_of_any_false {α : Type} {p : α → Bool} {t : List α}
    (h : t.any p = false) : t.filter p = [] := by
  induction t with
  | nil => rfl
  | cons q r ih =>
    rw [List.any_cons] at h
    cases hq : p q with
    | true => rw [hq] at h; simp at h
    | false =>
      rw [hq] at h
      simp only [Bool.false_or] at h
      simp [List.filter_cons, hq, ih h]

/-- In a duplicate-free dict, the entries with key `"type"` are exactly the
one found by lookup. -/
theorem filter_type_eq_singleton {kvs : List (String × PyVal)} {v : PyVal}
    (hnd : keysNodup kvs = true) (hl : alookup "type" kvs = some v) :
    kvs.filter (fun kv => kv.1 == "type") = [("type", v)] := by
  induction kvs with
  | nil => simp [alookup] at hl
  | cons kv t ih =>
    rw [keysNodup, Bool.and_eq_true] at hnd
    rw [alookup] at hl
    by_cases hk : (kv.1 == "type") = true
    · rw [if_pos hk] at hl
      injection hl with hv
      have hkey : kv.1 = "type" := eq_of_beq hk
      have hany : t.any (fun q => q.1 == "type") = false := by
        have h1 := hnd.1
        rw [Bool.not_eq_true'] at h1
        simpa only [hkey] using h1
      have h0 : kv = ("type", v) := by
        obtain ⟨k, w⟩ := kv
        simp only at hkey hv
        rw [hkey, hv]
      rw [List.filter_cons, if_pos hk, filter_eq_nil_of_any_false hany, h0]
    · rw [if_neg hk] at hl
      rw [List.filter_cons, if_neg hk]
      exact ih hnd.2 hl

mutual

/-- After `_strip_image_urls`, no `"image_url"` key remains anywhere in the
tree of a well-formed value. -/
theorem strip_hasImageKey (v : PyVal) (h : wf v = true) :
    hasImageKey (_strip_image_urls v) = false :=
  match v with
  | .none | .bool _ | .int _ | .str _ | .obj _ _ _ => rfl
  | .list xs => by
    simpa [_strip_image_urls, hasImageKey] using
      stripList_hasImageKey xs (by simpa [wf] using h)
  | .dict kvs => by
    have hnd : keysNodup kvs = true := by
      simp only [wf, Bool.and_eq_true] at h; exact h.1
    have hwe : wfEntries kvs = true := by
      simp only [wf, Bool.and_eq_true] at h; exact h.2
    by_cases ht : isImgTag (alookup "type" kvs)
    · rw [_strip_image_urls, if_pos ht]
      cases hl : alookup "type" kvs with
      | none => simp [isImgTag, hl] at ht
      | some w =>
        cases w with
        | str s =>
          rw [filter_type_eq_singleton hnd hl]
          simp [hasImageKey, hasImageKeyEntries]
        | _ => simp [isImgTag, hl] at ht
    · rw [_strip_image_urls, if_neg ht]
      simpa [hasImageKey] using stripEntries_hasImageKey kvs hwe

/-- List form of `strip_hasImageKey`. -/
theorem stripList_hasImageKey (xs : List PyVal) (h : wfList xs = true) :
    hasImageKeyList (stripList xs) = false :=
  match xs with
  | [] => rfl
  | x :: t => by
    simp only [wfList, Bool.and_eq_true] at h
    simp [stripList, hasImageKeyList, strip_hasImageKey x h.1,
      stripList_hasImageKey t h.2]

/-- Entry form of `strip_hasImageKey`. -/
theorem stripEntries_hasImageKey (kvs : List (String × PyVal))
    (h : wfEntries kvs = true) :
    hasImageKeyEntries (stripEntries kvs) = false :=
  match kvs with
  | [] => rfl
  | kv :: t => by
    simp only [wfEntries, Bool.and_eq_true] at h
    by_cases hk : kv.1 == "image_url"
    · simp [stripEntries, hk, stripEntries_hasImageKey t h.2]
    · simp [stripEntries, hk, hasImageKeyEntries, strip_hasImageKey kv.2 h.1,
        stripEntries_hasImageKey t h.2]

end

/-- A content part tagged as an image keeps its tag through sanitization. -/
theorem strip_keeps_tag (v : PyVal) (hwf : wf v = true)
    (h : isImgTagged v = true) : isImgTagged (_strip_image_urls v) = true := by
  cases v with
  | dict kvs =>
    have hnd : keysNodup kvs = true := by
      simp only [wf, Bool.and_eq_true] at hwf; exact hwf.1
    simp only [isImgTagged] at h
    rw [_strip_image_urls, if_pos h]
    cases hl : alookup "type" kvs with
    | none => simp [isImgTag, hl] at h
    | some w =>
      rw [filter_type_eq_singleton hnd hl]
      rw [hl] at h
      simpa [isImgTagged, alookup]
  | none => simp [isImgTagged] at h
  | bool b => simp [isImgTagged] at h
  | int n => simp [isImgTagged] at h
  | str s => simp [isImgTagged] at h
  | list xs => simp [isImgTagged] at h
  | obj d dm r => simp [isImgTagged] at h

/-- `jsonableList` is elementwise `_to_jsonable`. -/
theorem jsonableList_eq_map (xs : List PyVal) :
    jsonableList xs = xs.map _to_jsonable := by
  induction xs with
  | nil => rfl
  | cons x t ih => rw [jsonableList, ih, List.map_cons]

/-- `jsonableEntries` is valuewise `_to_jsonable`. -/
theorem jsonableEntries_eq_map (kvs : List (String × PyVal)) :
    jsonableEntries kvs = kvs.map (fun kv => (kv.1, _to_jsonable kv.2)) := by
  induction kvs with
  | nil => rfl
  | cons kv t ih => rw [jsonableEntries, ih, List.map_cons]

/-- C3: for every well-formed input containing an image content part, the
sanitized structure produced by `_strip_image_urls` contains no `"image_url"`
key anywhere in its tree of mappings and lists, and a content part tagged as
an image retains its `type` tag. -/
theorem C3_image_payload_sanitization (x : PyVal) (hwf : wf x = true)
    (himg : hasImagePart x = true) :
    hasImageKey (_strip_image_urls x) = false ∧
      (isImgTagged x = true → isImgTagged (_strip_image_urls x) = true) :=
  ⟨strip_hasImageKey x hwf, fun h => strip_keeps_tag x hwf h⟩

/-- A concrete image content part, as OpenAI-style message content. -/
def imgPartEx : PyVal :=
  .dict [("type", .str "image_url"),
    ("image_url", .dict [("url", .str "data:image/png;base64,iVBORw0KG")])]

/-- Witness for C3 at a concrete image content part. -/
theorem C3_image_payload_sanitization_witness :
    (wf imgPartEx = true ∧ hasImagePart imgPartEx = true) ∧
      hasImageKey (_strip_image_urls imgPartEx) = false ∧
      (isImgTagged imgPartEx = true → isImgTagged (_strip_image_urls imgPartEx) = true) :=
  ⟨⟨rfl, rfl⟩, C3_image_payload_sanitization imgPartEx rfl rfl⟩

/-- C4: `_redact` replaces the value of every key whose lowercase form
contains one of the substrings `api_key`, `apikey`, `authorization`, `auth`,
`token` with the fixed marker `"***REDACTED***"` and leaves every other
value unchanged; in the persisted request record, redaction is applied to
the call-options map only, while the messages field is the (unredacted)
serialized messages. -/
theorem C4_credential_redaction :
    (∀ d : List (String × PyVal), _redact (some d) = d.map (fun kv =>
      if isSensitive kv.1 then (kv.1, PyVal.str "***REDACTED***") else kv))
    ∧ (∀ ts ck model msgs kw c u err st et dur,
        (_write_markdown_log ts ck model msgs (some kw) c u err st et dur).reqKwargs
            = _redact (some kw)
        ∧ (_write_markdown_log ts ck model msgs (some kw) c u err st et dur).reqMessages
            = _serialize_messages msgs) := by
  constructor
  · intro d
    cases d with
    | nil => rfl
    | cons kv t => rfl
  · intro ts ck model msgs kw c u err st et dur
    exact ⟨rfl, rfl⟩

/-- C7: `_to_jsonable` is total (it can never raise: a raising
`model_dump()`/`dict()` call — the only fallible steps — degrades to the
`str()` form of the offending value), expands structured-dump-capable
objects, passes scalars through, recurses into lists and mappings, and
converts anything else to its string form. -/
theorem C7_serialization_totality :
    (∀ d dm r, _to_jsonable (.obj (some (some d)) dm r) = d)
    ∧ (∀ dm r, _to_jsonable (.obj (some Option.none) dm r) = .str r)
    ∧ (∀ d r, _to_jsonable (.obj Option.none (some (some d)) r) = d)
    ∧ (∀ r, _to_jsonable (.obj Option.none (some Option.none) r) = .str r)
    ∧ (_to_jsonable .none = .none)
    ∧ (∀ b, _to_jsonable (.bool b) = .bool b)
    ∧ (∀ n, _to_jsonable (.int n) = .int n)
    ∧ (∀ s, _to_jsonable (.str s) = .str s)
    ∧ (∀ xs, _to_jsonable (.list xs) = .list (xs.map _to_jsonable))
    ∧ (∀ kvs, _to_jsonable (.dict kvs)
        = .dict (kvs.map (fun kv => (kv.1, _to_jsonable kv.2))))
    ∧ (∀ r, _to_jsonable (.obj Option.none Option.none r) = .str r) :=
  ⟨fun _ _ _ => rfl, fun _ _ => rfl, fun _ _ => rfl, fun _ => rfl, rfl,
    fun _ => rfl, fun _ => rfl, fun _ => rfl,
    fun xs => by rw [_to_jsonable, jsonableList_eq_map],
    fun kvs => by rw [_to_jsonable, jsonableEntries_eq_map],
    fun _ => rfl⟩

/-- C10: the wrapper's identity accessors are total (pure `getattr` chains
with defaults, so they never raise); `name` falls back to the inner `model`
attribute, `model` and `model_name` fall back to each other, and each
accessor returns `"unknown"` when no fallback attribute exists. -/
theorem C10_identity_accessor_fallbacks (c : InnerClient) :
    (∀ s, c.provider = some s → wrapperProvider c = s)
    ∧ (c.provider = Option.none → wrapperProvider c = "unknown")
    ∧ (∀ s, c.name = some s → wrapperName c = s)
    ∧ (c.name = Option.none → ∀ s, c.model = some s → wrapperName c = s)
    ∧ (c.name = Option.none → c.model = Option.none → wrapperName c = "unknown")
    ∧ (∀ s, c.model = some s → wrapperModel c = s)
    ∧ (c.model = Option.none → ∀ s, c.model_name = some s → wrapperModel c = s)
    ∧ (c.model = Option.none → c.model_name = Option.none →
        wrapperModel c = "unknown")
    ∧ (∀ s, c.model_name = some s → wrapperModelName c = s)
    ∧ (c.model_name = Option.none → ∀ s, c.model = some s →
        wrapperModelName c = s)
    ∧ (c.model_name = Option.none → c.model = Option.none →
        wrapperModelName c = "unknown") :=
  ⟨fun _ h => by simp [wrapperProvider, h],
    fun h => by simp [wrapperProvider, h],
    fun _ h => by simp [wrapperName, h],
    fun h _ hm => by simp [wrapperName, h, hm],
    fun h hm => by simp [wrapperName, h, hm],
    fun _ h => by simp [wrapperModel, h],
    fun h _ hm => by simp [wrapperModel, h, hm],
    fun h hm => by simp [wrapperModel, h, hm],
    fun _ h => by simp [wrapperModelName, h],
    fun h _ hm => by simp [wrapperModelName, h, hm],
    fun h hm => by simp [wrapperModelName, h, hm]⟩

/-- Witness for C10 on a client exposing only a `model` attribute. -/
theorem C10_identity_accessor_fallbacks_witness :
    wrapperName ⟨Option.none, Option.none, some "gpt-test", Option.none⟩ = "gpt-test"
    ∧ wrapperModelName ⟨Option.none, Option.none, some "gpt-test", Option.none⟩ = "gpt-test"
    ∧ wrapperProvider ⟨Option.none, Option.none, some "gpt-test", Option.none⟩ = "unknown" := by
  obtain ⟨h1, h2, h3, h4, h5, h6, h7, h8, h9, h10, h11⟩ :=
    C10_identity_accessor_fallbacks ⟨Option.none, Option.none, some "gpt-test", Option.none⟩
  exact ⟨h4 rfl "gpt-test" rfl, h10 rfl "gpt-test" rfl, h2 rfl⟩


/-! ### The key sort of `sort_keys=True`: permutation and sortedness -/

/-- Rendered dict entries in nondecreasing key order. -/
def KeySorted (l : List (String × String)) : Prop :=
  List.Pairwise (fun a b : String × String => a.1 ≤ b.1) l

/-- Inserting is a permutation of consing. -/
theorem insertPair_perm (p : String × String) (l : List (String × String)) :
    (insertPair p l).Perm (p :: l) := by
  induction l with
  | nil => exact List.Perm.refl _
  | cons q t ih =>
    rw [insertPair]
    by_cases h : p.1 < q.1
    · rw [if_pos h]
    · rw [if_neg h]
      exact (ih.cons q).trans (List.Perm.swap p q t)

/-- Sorting is a permutation. -/
theorem sortPairs_perm (l : List (String × String)) : (sortPairs l).Perm l := by
  induction l with
  | nil => exact List.Perm.refl _
  | cons p t ih => exact (insertPair_perm p (sortPairs t)).trans (ih.cons p)

/-- Inserting into a key-sorted list keeps it key-sorted. -/
theorem insertPair_sorted {p : String × String} {l : List (String × String)}
    (h : KeySorted l) : KeySorted (insertPair p l) := by
  induction l with
  | nil => exact List.pairwise_singleton _ _
  | cons q t ih =>
    rw [insertPair]
    rw [KeySorted, List.pairwise_cons] at h
    by_cases hpq : p.1 < q.1
    · rw [if_pos hpq]
      rw [KeySorted, List.pairwise_cons]
      refine ⟨?_, h.2.cons h.1⟩
      intro b hb
      rcases List.mem_cons.mp hb with hb' | hb'
      · rw [hb']
        exact le_of_lt hpq
      · exact le_trans (le_of_lt hpq) (h.1 b hb')
    · rw [if_neg hpq]
      rw [KeySorted, List.pairwise_cons]
      refine ⟨?_, ih h.2⟩
      intro b hb
      rcases List.mem_cons.mp ((insertPair_perm p t).mem_iff.mp hb) with hb' | hb'
      · rw [hb']
        exact le_of_not_lt hpq
      · exact h.1 b hb'

/-- The sort used to model `sort_keys=True` produces a key-sorted list. -/
theorem sortPairs_sorted (l : List (String × String)) : KeySorted (sortPairs l) := by
  induction l with
  | nil => exact List.Pairwise.nil
  | cons p t ih => exact insertPair_sorted ih

/-- Two key-sorted permutations of each other with duplicate-free keys are
equal. -/
theorem eq_of_perm_sorted_nodupKeys :
    ∀ {l1 l2 : List (String × String)}, l1.Perm l2 → KeySorted l1 → KeySorted l2 →
      (l1.map Prod.fst).Nodup → l1 = l2
  | [], l2, hp, _, _, _ => List.Perm.nil_eq hp
  | a :: t1, l2, hp, hs1, hs2, hnd => by
    cases l2 with
    | nil => exact absurd (List.Perm.nil_eq hp.symm) (by simp)
    | cons b t2 =>
      rw [KeySorted, List.pairwise_cons] at hs1 hs2
      have hab : a = b := by
        rcases List.mem_cons.mp (hp.mem_iff.mp (List.mem_cons_self a t1)) with h | hamem
        · exact h
        · rcases List.mem_cons.mp (hp.symm.mem_iff.mp (List.mem_cons_self b t2)) with h | hbmem
          · exact h.symm
          · -- a ∈ t2 and b ∈ t1: their keys coincide, contradicting nodup
            have h1 : a.1 ≤ b.1 := hs1.1 b hbmem
            have h2 : b.1 ≤ a.1 := hs2.1 a hamem
            have hkey : b.1 = a.1 := le_antisymm h2 h1
            rw [List.map_cons, List.nodup_cons] at hnd
            exact absurd (hkey ▸ List.mem_map_of_mem Prod.fst hbmem) hnd.1
      subst hab
      have ht : t1 = t2 := by
        refine eq_of_perm_sorted_nodupKeys hp.cons_inv hs1.2 hs2.2 ?_
        rw [List.map_cons, List.nodup_cons] at hnd
        exact hnd.2
      rw [ht]

/-- `dumpEntries` renders each value in place. -/
theorem dumpEntries_eq_map (kvs : List (String × PyVal)) :
    dumpEntries kvs = kvs.map (fun kv => (kv.1, dumpVal kv.2)) := by
  induction kvs with
  | nil => rfl
  | cons kv t ih => rw [dumpEntries, ih, List.map_cons]

/-- `dumpList` renders each element in place. -/
theorem dumpList_eq_map (xs : List PyVal) : dumpList xs = xs.map dumpVal := by
  induction xs with
  | nil => rfl
  | cons x t ih => rw [dumpList, ih, List.map_cons]

/-- The Boolean key-nodup check agrees with `List.Nodup` of the keys. -/
theorem keysNodup_iff {l : List (String × PyVal)} :
    keysNodup l = true ↔ (l.map Prod.fst).Nodup := by
  induction l with
  | nil => simp [keysNodup]
  | cons kv t ih =>
    rw [keysNodup, Bool.and_eq_true, ih, List.map_cons, List.nodup_cons]
    have hiff : (!t.any fun q => q.1 == kv.1) = true ↔ kv.1 ∉ t.map Prod.fst := by
      rw [Bool.not_eq_true', List.any_eq_false]
      constructor
      · intro h hmem
        obtain ⟨q, hq, hq1⟩ := List.mem_map.mp hmem
        exact h q hq (beq_iff_eq.mpr hq1)
      · intro h q hq hq1
        exact h (eq_of_beq hq1 ▸ List.mem_map_of_mem Prod.fst hq)
    rw [hiff]

/-! ### Lookup under permutation of duplicate-free dicts -/

/-- A successful lookup is a membership. -/
theorem alookup_mem {l : List (String × PyVal)} {k : String} {v : PyVal}
    (h : alookup k l = some v) : (k, v) ∈ l := by
  induction l with
  | nil => exact absurd h (by simp [alookup])
  | cons kv t ih =>
    rw [alookup] at h
    by_cases hk : (kv.1 == k) = true
    · rw [if_pos hk] at h
      injection h with hv
      have hkv : kv = (k, v) := by
        obtain ⟨a, b⟩ := kv
        simp only at hv hk
        rw [Prod.mk.injEq]
        exact ⟨eq_of_beq hk, hv⟩
      rw [hkv]
      exact List.mem_cons_self _ _
    · rw [if_neg hk] at h
      exact List.mem_cons_of_mem kv (ih h)

/-- In a duplicate-free dict, every entry is found by lookup. -/
theorem alookup_eq_some_of_mem {l : List (String × PyVal)} {k : String} {v : PyVal}
    (hnd : keysNodup l = true) (hm : (k, v) ∈ l) : alookup k l = some v := by
  induction l with
  | nil => exact absurd hm (by simp)
  | cons kv t ih =>
    rw [keysNodup, Bool.and_eq_true] at hnd
    rcases List.mem_cons.mp hm with hh | ht
    · rw [alookup, ← hh]
      simp
    · rw [alookup]
      by_cases hk : (kv.1 == k) = true
      · exfalso
        have hany : t.any (fun q => q.1 == kv.1) = true :=
          List.any_eq_true.mpr ⟨(k, v), ht, by rw [eq_of_beq hk]; simp⟩
        have h1 := hnd.1
        rw [Bool.not_eq_true'] at h1
        rw [h1] at hany
        exact Bool.false_ne_true hany
      · rw [if_neg hk]
        exact ih hnd.2 ht

/-- Key-nodup is preserved by permutation. -/
theorem keysNodup_perm {l1 l2 : List (String × PyVal)} (hp : l1.Perm l2)
    (hnd : keysNodup l1 = true) : keysNodup l2 = true :=
  keysNodup_iff.mpr ((hp.map Prod.fst).nodup_iff.mp (keysNodup_iff.mp hnd))

/-- A failed lookup means the key is absent. -/
theorem alookup_eq_none_iff {l : List (String × PyVal)} {k : String} :
    alookup k l = Option.none ↔ k ∉ l.map Prod.fst := by
  induction l with
  | nil => simp [alookup]
  | cons kv t ih =>
    rw [alookup, List.map_cons]
    by_cases hk : (kv.1 == k) = true
    · rw [if_pos hk]
      simp [eq_of_beq hk]
    · rw [if_neg hk, ih, List.mem_cons]
      have : ¬k = kv.1 := fun h => hk (beq_iff_eq.mpr (h ▸ rfl))
      tauto

/-- Lookup in a duplicate-free dict is invariant under permutation. -/
theorem alookup_perm {l1 l2 : List (String × PyVal)} (hp : l1.Perm l2)
    (hnd : keysNodup l1 = true) (k : String) : alookup k l1 = alookup k l2 := by
  have hnd2 : keysNodup l2 = true := keysNodup_perm hp hnd
  cases h : alookup k l1 with
  | some v =>
    exact (alookup_eq_some_of_mem hnd2 (hp.mem_iff.mp (alookup_mem h))).symm
  | none =>
    cases h2 : alookup k l2 with
    | none => rfl
    | some v =>
      have h3 := alookup_eq_some_of_mem hnd (hp.mem_iff.mpr (alookup_mem h2))
      rw [h] at h3
      exact absurd h3 (by simp)

/-- `stripEntries` as a filter of non-payload keys followed by a valuewise
strip. -/
theorem stripEntries_eq (l : List (String × PyVal)) :
    stripEntries l = (l.filter (fun kv => !(kv.1 == "image_url"))).map
      (fun kv => (kv.1, _strip_image_urls kv.2)) := by
  induction l with
  | nil => rfl
  | cons kv t ih =>
    rw [stripEntries, List.filter_cons]
    by_cases hk : (kv.1 == "image_url") = true
    · rw [if_pos hk, ih]
      simp [hk]
    · rw [if_neg hk, ih]
      simp [hk]

/-- Key-nodup survives filtering. -/
theorem keysNodup_filter {l : List (String × PyVal)} {p : String × PyVal → Bool}
    (hnd : keysNodup l = true) : keysNodup (l.filter p) = true :=
  keysNodup_iff.mpr (List.Nodup.sublist
    (List.Sublist.map Prod.fst (List.filter_sublist l)) (keysNodup_iff.mp hnd))

/-- Key-nodup survives a key-preserving value map. -/
theorem keysNodup_map_val {l : List (String × PyVal)} {f : PyVal → PyVal}
    (hnd : keysNodup l = true) :
    keysNodup (l.map (fun kv => (kv.1, f kv.2))) = true := by
  rw [keysNodup_iff, List.map_map]
  have : (Prod.fst ∘ fun kv : String × PyVal => (kv.1, f kv.2)) = Prod.fst := rfl
  rw [this]
  exact keysNodup_iff.mp hnd

/-- A duplicate-free dict and any permutation of it render identically under
`json.dumps(..., sort_keys=True)`. -/
theorem dumpVal_dict_perm {l1 l2 : List (String × PyVal)} (hp : l1.Perm l2)
    (hnd : keysNodup l1 = true) : dumpVal (.dict l1) = dumpVal (.dict l2) := by
  rw [dumpVal, dumpVal]
  have hperm : (sortPairs (dumpEntries l1)).Perm (sortPairs (dumpEntries l2)) := by
    refine (sortPairs_perm _).trans (List.Perm.trans ?_ (sortPairs_perm _).symm)
    rw [dumpEntries_eq_map, dumpEntries_eq_map]
    exact hp.map _
  have hkeys : ((sortPairs (dumpEntries l1)).map Prod.fst).Nodup := by
    have hkeyeq : (dumpEntries l1).map Prod.fst = l1.map Prod.fst := by
      rw [dumpEntries_eq_map, List.map_map]
      rfl
    have h1 := (sortPairs_perm (dumpEntries l1)).map Prod.fst
    rw [hkeyeq] at h1
    exact h1.nodup_iff.mpr (keysNodup_iff.mp hnd)
  rw [eq_of_perm_sorted_nodupKeys hperm (sortPairs_sorted _) (sortPairs_sorted _) hkeys]

/-! ### Fingerprint determinism (claim C2) -/

/-- Sanitizing two permuted duplicate-free dicts yields identically rendered
JSON. -/
theorem strip_dict_dumpEq {l1 l2 : List (String × PyVal)} (hp : l1.Perm l2)
    (hnd : keysNodup l1 = true) :
    dumpVal (_strip_image_urls (.dict l1)) = dumpVal (_strip_image_urls (.dict l2)) := by
  have hnd2 := keysNodup_perm hp hnd
  have hlook := alookup_perm hp hnd "type"
  rw [_strip_image_urls, _strip_image_urls, ← hlook]
  by_cases ht : isImgTag (alookup "type" l1) = true
  · rw [if_pos ht, if_pos ht]
    cases hl : alookup "type" l1 with
    | none => rw [hl] at ht; exact absurd ht (by simp [isImgTag])
    | some v =>
      rw [filter_type_eq_singleton hnd hl, filter_type_eq_singleton hnd2 (hlook ▸ hl)]
  · rw [if_neg ht, if_neg ht]
    rw [stripEntries_eq, stripEntries_eq]
    exact dumpVal_dict_perm ((hp.filter _).map _)
      (keysNodup_map_val (keysNodup_filter hnd))

/-- `_to_jsonable` then `_strip_image_urls` of permuted duplicate-free dicts
render identically. -/
theorem strip_jsonable_dict_dumpEq {l1 l2 : List (String × PyVal)} (hp : l1.Perm l2)
    (hnd : keysNodup l1 = true) :
    dumpVal (_strip_image_urls (_to_jsonable (.dict l1)))
      = dumpVal (_strip_image_urls (_to_jsonable (.dict l2))) := by
  rw [_to_jsonable, _to_jsonable, jsonableEntries_eq_map, jsonableEntries_eq_map]
  exact strip_dict_dumpEq (hp.map _) (keysNodup_map_val hnd)

/-- Two message values with the same roles and content, differing only in
object identity or the ordering of their fields: in the embedding, either the
same value, or dicts whose entry lists are permutations of each other (with
the duplicate-free keys every Python dict has). -/
def MsgEquiv (m1 m2 : PyVal) : Prop :=
  m1 = m2 ∨ ∃ kvs1 kvs2, m1 = .dict kvs1 ∧ m2 = .dict kvs2 ∧
    kvs1.Perm kvs2 ∧ keysNodup kvs1 = true

/-- Equivalent messages serialize to identically rendered elements (or both
abort the serialization loop). -/
theorem serElem_dumpEq {m1 m2 : PyVal} (h : MsgEquiv m1 m2) :
    (serElem m1 = Option.none ∧ serElem m2 = Option.none) ∨
      ∃ s1 s2, serElem m1 = some s1 ∧ serElem m2 = some s2 ∧
        dumpVal s1 = dumpVal s2 := by
  rcases h with rfl | ⟨kvs1, kvs2, rfl, rfl, hp, hnd⟩
  · cases hs : serElem m1 with
    | none => exact Or.inl ⟨rfl, rfl⟩
    | some v => exact Or.inr ⟨v, v, rfl, rfl, rfl⟩
  · exact Or.inr ⟨_, _, rfl, rfl, strip_jsonable_dict_dumpEq hp hnd⟩

/-- Lists of equivalent messages serialize to identically rendered lists (or
both abort). -/
theorem serList_dumpEq {ms1 ms2 : List PyVal} (h : List.Forall₂ MsgEquiv ms1 ms2) :
    (serList ms1 = Option.none ∧ serList ms2 = Option.none) ∨
      ∃ o1 o2, serList ms1 = some o1 ∧ serList ms2 = some o2 ∧
        dumpList o1 = dumpList o2 := by
  induction h with
  | nil => exact Or.inr ⟨[], [], rfl, rfl, rfl⟩
  | @cons a b t1 t2 hh ht ih =>
    rcases serElem_dumpEq hh with ⟨ha, hb⟩ | ⟨s1, s2, ha, hb, hs⟩
    · exact Or.inl ⟨by rw [serList, ha], by rw [serList, hb]⟩
    · rcases ih with ⟨ht1, ht2⟩ | ⟨o1, o2, ht1, ht2, ho⟩
      · exact Or.inl ⟨by rw [serList, ha, ht1], by rw [serList, hb, ht2]⟩
      · refine Or.inr ⟨s1 :: o1, s2 :: o2, by rw [serList, ha, ht1],
          by rw [serList, hb, ht2], ?_⟩
        rw [dumpList, dumpList, hs, ho]

/-- The fallback path of `_serialize_messages` renders equivalent message
lists identically. -/
theorem stripList_jsonableList_dumpEq {ms1 ms2 : List PyVal}
    (h : List.Forall₂ MsgEquiv ms1 ms2) :
    dumpList (stripList (jsonableList ms1)) = dumpList (stripList (jsonableList ms2)) := by
  induction h with
  | nil => rfl
  | @cons a b t1 t2 hh ht ih =>
    have hd : dumpVal (_strip_image_urls (_to_jsonable a))
        = dumpVal (_strip_image_urls (_to_jsonable b)) := by
      rcases hh with rfl | ⟨kvs1, kvs2, rfl, rfl, hp, hnd⟩
      · rfl
      · exact strip_jsonable_dict_dumpEq hp hnd
    rw [jsonableList, jsonableList, stripList, stripList, dumpList, dumpList, ih, hd]

/-- `_serialize_messages` renders equivalent message lists identically. -/
theorem serialize_dumpEq {ms1 ms2 : List PyVal} (h : List.Forall₂ MsgEquiv ms1 ms2) :
    dumpVal (_serialize_messages (.list ms1)) = dumpVal (_serialize_messages (.list ms2)) := by
  rw [_serialize_messages, _serialize_messages]
  rcases serList_dumpEq h with ⟨h1, h2⟩ | ⟨o1, o2, h1, h2, heq⟩
  · rw [h1, h2, _to_jsonable, _to_jsonable, _strip_image_urls, _strip_image_urls,
      dumpVal, dumpVal, stripList_jsonableList_dumpEq h]
  · rw [h1, h2, dumpVal, dumpVal, heq]

/-- C2: two requests with the same model identifier, the same message roles
and content and the same call options — the messages differing only in
object identity or in the ordering of their dict fields — receive equal
fingerprints from `_hash_request`. -/
theorem C2_fingerprint_determinism (model : String) (kwargs : List (String × PyVal))
    {msgs1 msgs2 : List PyVal} (h : List.Forall₂ MsgEquiv msgs1 msgs2) :
    _hash_request model (.list msgs1) kwargs = _hash_request model (.list msgs2) kwargs := by
  rw [_hash_request, _hash_request, hashPayload, hashPayload]
  have hs := serialize_dumpEq h
  rw [dumpVal, dumpVal, dumpEntries_eq_map, dumpEntries_eq_map]
  simp only [List.map_cons, List.map_nil]
  rw [hs]

/-- First variant of a concrete message. -/
def msgFieldsA : PyVal := .dict [("role", .str "user"), ("content", .str "hello")]

/-- The same message with its fields in the opposite order. -/
def msgFieldsB : PyVal := .dict [("content", .str "hello"), ("role", .str "user")]

/-- Witness for C2: the two field orderings of one message hash equally. -/
theorem C2_fingerprint_determinism_witness :
    List.Forall₂ MsgEquiv [msgFieldsA] [msgFieldsB] ∧
      _hash_request "gpt-test" (.list [msgFieldsA]) []
        = _hash_request "gpt-test" (.list [msgFieldsB]) [] := by
  have hf : List.Forall₂ MsgEquiv [msgFieldsA] [msgFieldsB] := by
    refine List.Forall₂.cons (Or.inr ⟨_, _, rfl, rfl, ?_, by decide⟩) List.Forall₂.nil
    exact List.Perm.swap _ _ _
  exact ⟨hf, C2_fingerprint_determinism "gpt-test" [] hf⟩

/-! ### Fingerprint/log consistency (claim C9): sanitizing before hashing
changes nothing -/

/-- Strong induction on the size of a `PyVal`. -/
theorem pyval_strong_ind (P : PyVal → Prop)
    (h : ∀ x, (∀ y : PyVal, sizeOf y < sizeOf x → P y) → P x) : ∀ x, P x := by
  intro x
  have hall : ∀ n, ∀ y : PyVal, sizeOf y < n → P y := by
    intro n
    induction n with
    | zero => intro y hy; omega
    | succ n ih => intro y hy; exact h y (fun z hz => ih z (by omega))
  exact h x (fun y hy => hall (sizeOf x) y hy)

/-- List elements are smaller than the list value. -/
theorem sizeOf_lt_of_mem_list {x : PyVal} {xs : List PyVal} (h : x ∈ xs) :
    sizeOf x < sizeOf (PyVal.list xs) := by
  have h1 := List.sizeOf_lt_of_mem h
  simp only [PyVal.list.sizeOf_spec]
  omega

/-- Entry values are smaller than the dict value. -/
theorem sizeOf_lt_of_mem_dict {kv : String × PyVal} {kvs : List (String × PyVal)}
    (h : kv ∈ kvs) : sizeOf kv.2 < sizeOf (PyVal.dict kvs) := by
  have h1 := List.sizeOf_lt_of_mem h
  have h2 : sizeOf kv = 1 + sizeOf kv.1 + sizeOf kv.2 := by
    obtain ⟨a, b⟩ := kv
    simp
  simp only [PyVal.dict.sizeOf_spec]
  omega

/-- Lookup commutes with a key-preserving value map. -/
theorem alookup_map_val {f : PyVal → PyVal} {k : String} :
    ∀ {l : List (String × PyVal)},
      alookup k (l.map (fun kv => (kv.1, f kv.2))) = (alookup k l).map f
  | [] => rfl
  | kv :: t => by
    rw [List.map_cons, alookup, alookup]
    by_cases hk : (kv.1 == k) = true
    · simp only [hk, if_pos]
      rfl
    · simp only [hk]
      exact alookup_map_val

/-- Dropping `image_url` entries does not affect the `type` lookup. -/
theorem alookup_filter_ne :
    ∀ {l : List (String × PyVal)},
      alookup "type" (l.filter (fun kv => !(kv.1 == "image_url"))) = alookup "type" l
  | [] => rfl
  | kv :: t => by
    rw [List.filter_cons]
    by_cases hk : (kv.1 == "image_url") = true
    · rw [if_neg (by rw [hk]; decide)]
      have h2 : alookup "type" (kv :: t) = alookup "type" t := by
        rw [alookup, if_neg (by rw [eq_of_beq hk]; decide)]
      rw [h2]
      exact alookup_filter_ne
    · rw [Bool.not_eq_true] at hk
      rw [if_pos (by rw [hk]; decide)]
      rw [alookup, alookup]
      by_cases ht : (kv.1 == "type") = true
      · rw [if_pos ht, if_pos ht]
      · rw [if_neg ht, if_neg ht]
        exact alookup_filter_ne

/-- `_strip_image_urls` maps dicts to dicts. -/
theorem strip_dict_shape (l : List (String × PyVal)) :
    ∃ l', _strip_image_urls (.dict l) = .dict l' := by
  rw [_strip_image_urls]
  by_cases hc : isImgTag (alookup "type" l) = true
  · exact ⟨_, by rw [if_pos hc]⟩
  · exact ⟨_, by rw [if_neg hc]⟩

/-- Whether the sanitized-then-converted value is the image tag is decided
by the converted value alone; and when the tag fires, sanitization did not
change the converted value. -/
theorem isImgTag_strip_jsonable (v : PyVal) :
    isImgTag (some (_to_jsonable (_strip_image_urls v)))
        = isImgTag (some (_to_jsonable v))
      ∧ (isImgTag (some (_to_jsonable v)) = true →
          _to_jsonable (_strip_image_urls v) = _to_jsonable v) := by
  cases v with
  | dict l =>
    obtain ⟨l', hl'⟩ := strip_dict_shape l
    rw [hl']
    exact ⟨rfl, fun h => absurd h (by simp [_to_jsonable, isImgTag])⟩
  | list xs => exact ⟨rfl, fun h => absurd h Bool.false_ne_true⟩
  | none => exact ⟨rfl, fun _ => rfl⟩
  | bool b => exact ⟨rfl, fun _ => rfl⟩
  | int n => exact ⟨rfl, fun _ => rfl⟩
  | str s => exact ⟨rfl, fun _ => rfl⟩
  | obj d dm r => exact ⟨rfl, fun _ => rfl⟩

/-- Well-formedness of a list passes to its members. -/
theorem wfList_mem {ys : List PyVal} {y : PyVal} (h : wfList ys = true)
    (hm : y ∈ ys) : wf y = true := by
  induction ys with
  | nil => exact absurd hm (by simp)
  | cons z t ih =>
    rw [wfList, Bool.and_eq_true] at h
    rcases List.mem_cons.mp hm with rfl | hm'
    · exact h.1
    · exact ih h.2 hm'

/-- Well-formedness of dict entries passes to the values. -/
theorem wfEntries_mem {l : List (String × PyVal)} {kv : String × PyVal}
    (h : wfEntries l = true) (hm : kv ∈ l) : wf kv.2 = true := by
  induction l with
  | nil => exact absurd hm (by simp)
  | cons z t ih =>
    rw [wfEntries, Bool.and_eq_true] at h
    rcases List.mem_cons.mp hm with rfl | hm'
    · exact h.1
    · exact ih h.2 hm'

/-- Elementwise form of the sanitize-convert idempotence. -/
theorem stripL_jsonL_stripL (ys : List PyVal)
    (hmem : ∀ y ∈ ys, _strip_image_urls (_to_jsonable (_strip_image_urls y))
      = _strip_image_urls (_to_jsonable y)) :
    stripList (jsonableList (stripList ys)) = stripList (jsonableList ys) := by
  induction ys with
  | nil => rfl
  | cons y t ih =>
    show _strip_image_urls (_to_jsonable (_strip_image_urls y))
        :: stripList (jsonableList (stripList t))
      = _strip_image_urls (_to_jsonable y) :: stripList (jsonableList t)
    rw [hmem y (List.mem_cons_self y t),
      ih (fun z hz => hmem z (List.mem_cons_of_mem y hz))]

/-- Entrywise form of the sanitize-convert idempotence. -/
theorem stripE_jsonE_stripE (l : List (String × PyVal))
    (hmem : ∀ kv ∈ l, _strip_image_urls (_to_jsonable (_strip_image_urls kv.2))
      = _strip_image_urls (_to_jsonable kv.2)) :
    stripEntries (jsonableEntries (stripEntries l)) = stripEntries (jsonableEntries l) := by
  induction l with
  | nil => rfl
  | cons kv t ih =>
    have ihr := ih (fun z hz => hmem z (List.mem_cons_of_mem kv hz))
    by_cases hk : (kv.1 == "image_url") = true
    · have e1 : stripEntries (kv :: t) = stripEntries t := by
        rw [stripEntries, if_pos hk]
      have e3 : stripEntries ((kv.1, _to_jsonable kv.2) :: jsonableEntries t)
          = stripEntries (jsonableEntries t) := by
        rw [stripEntries, if_pos hk]
      rw [e1]
      show stripEntries (jsonableEntries (stripEntries t))
        = stripEntries ((kv.1, _to_jsonable kv.2) :: jsonableEntries t)
      rw [e3, ihr]
    · have e2 : ∀ (w : PyVal) (rest : List (String × PyVal)),
          stripEntries ((kv.1, w) :: rest)
            = (kv.1, _strip_image_urls w) :: stripEntries rest := by
        intro w rest
        rw [stripEntries, if_neg hk]
      have e1 : stripEntries (kv :: t) = (kv.1, _strip_image_urls kv.2) :: stripEntries t := by
        rw [show kv = (kv.1, kv.2) from rfl, e2]
      rw [e1]
      show stripEntries ((kv.1, _to_jsonable (_strip_image_urls kv.2))
          :: jsonableEntries (stripEntries t))
        = stripEntries ((kv.1, _to_jsonable kv.2) :: jsonableEntries t)
      rw [e2, e2, hmem kv (List.mem_cons_self kv t), ihr]

/-- Core consistency lemma: for a well-formed value, sanitizing before the
convert-then-sanitize pipeline changes nothing —
`strip (jsonable (strip x)) = strip (jsonable x)`. -/
theorem strip_jsonable_strip : ∀ x : PyVal, wf x = true →
    _strip_image_urls (_to_jsonable (_strip_image_urls x))
      = _strip_image_urls (_to_jsonable x) := by
  refine pyval_strong_ind
    (fun x => wf x = true →
      _strip_image_urls (_to_jsonable (_strip_image_urls x))
        = _strip_image_urls (_to_jsonable x)) ?_
  intro x IH hwf
  cases x with
  | none => rfl
  | bool b => rfl
  | int n => rfl
  | str s => rfl
  | obj d dm r => rfl
  | list xs =>
    show PyVal.list (stripList (jsonableList (stripList xs)))
      = PyVal.list (stripList (jsonableList xs))
    rw [stripL_jsonL_stripL xs (fun y hy =>
      IH y (sizeOf_lt_of_mem_list hy) (wfList_mem hwf hy))]
  | dict kvs =>
    have hnd : keysNodup kvs = true := by
      rw [wf, Bool.and_eq_true] at hwf
      exact hwf.1
    have hwe : wfEntries kvs = true := by
      rw [wf, Bool.and_eq_true] at hwf
      exact hwf.2
    have hinner : stripEntries (jsonableEntries (stripEntries kvs))
        = stripEntries (jsonableEntries kvs) :=
      stripE_jsonE_stripE kvs (fun kv hkv =>
        IH kv.2 (sizeOf_lt_of_mem_dict hkv) (wfEntries_mem hwe hkv))
    by_cases ht : isImgTag (alookup "type" kvs) = true
    · -- an image content part: both sides collapse to the bare tag
      obtain ⟨s, hl, hs⟩ : ∃ s, alookup "type" kvs = some (PyVal.str s)
          ∧ (s == "image_url") = true := by
        cases hl : alookup "type" kvs with
        | none => rw [hl] at ht; exact absurd ht Bool.false_ne_true
        | some w =>
          cases w with
          | str s => rw [hl] at ht; exact ⟨s, rfl, ht⟩
          | none => rw [hl] at ht; exact absurd ht Bool.false_ne_true
          | bool b => rw [hl] at ht; exact absurd ht Bool.false_ne_true
          | int n => rw [hl] at ht; exact absurd ht Bool.false_ne_true
          | list xs => rw [hl] at ht; exact absurd ht Bool.false_ne_true
          | dict kvs2 => rw [hl] at ht; exact absurd ht Bool.false_ne_true
          | obj d dm r => rw [hl] at ht; exact absurd ht Bool.false_ne_true
      have hkey : s = "image_url" := eq_of_beq hs
      subst hkey
      have h1 : _strip_image_urls (.dict kvs) = .dict [("type", PyVal.str "image_url")] := by
        rw [_strip_image_urls, if_pos ht, filter_type_eq_singleton hnd hl]
      rw [h1]
      have h2 : _strip_image_urls (_to_jsonable (.dict [("type", PyVal.str "image_url")]))
          = .dict [("type", PyVal.str "image_url")] := rfl
      rw [h2]
      have hl2 : alookup "type" (jsonableEntries kvs) = some (PyVal.str "image_url") := by
        rw [jsonableEntries_eq_map, alookup_map_val, hl]
        rfl
      have hnd2 : keysNodup (jsonableEntries kvs) = true := by
        rw [jsonableEntries_eq_map]
        exact keysNodup_map_val hnd
      have h3 : _to_jsonable (.dict kvs) = .dict (jsonableEntries kvs) := rfl
      rw [h3, _strip_image_urls, if_pos (by rw [hl2]; decide),
        filter_type_eq_singleton hnd2 hl2]
    · -- not an image part: recurse into the entries
      have h1 : _strip_image_urls (.dict kvs) = .dict (stripEntries kvs) := by
        rw [_strip_image_urls, if_neg ht]
      rw [h1]
      have h2a : _to_jsonable (.dict (stripEntries kvs))
          = .dict (jsonableEntries (stripEntries kvs)) := rfl
      have h2b : _to_jsonable (.dict kvs) = .dict (jsonableEntries kvs) := rfl
      rw [h2a, h2b]
      cases hl : alookup "type" kvs with
      | none =>
        have c1 : alookup "type" (jsonableEntries (stripEntries kvs)) = Option.none := by
          rw [jsonableEntries_eq_map, alookup_map_val, stripEntries_eq,
            alookup_map_val, alookup_filter_ne, hl]
          rfl
        have c2 : alookup "type" (jsonableEntries kvs) = Option.none := by
          rw [jsonableEntries_eq_map, alookup_map_val, hl]
          rfl
        rw [_strip_image_urls, _strip_image_urls,
          if_neg (by rw [c1]; exact Bool.false_ne_true),
          if_neg (by rw [c2]; exact Bool.false_ne_true)]
        exact congrArg PyVal.dict hinner
      | some v =>
        have c1 : alookup "type" (jsonableEntries (stripEntries kvs))
            = some (_to_jsonable (_strip_image_urls v)) := by
          rw [jsonableEntries_eq_map, alookup_map_val, stripEntries_eq,
            alookup_map_val, alookup_filter_ne, hl]
          rfl
        have c2 : alookup "type" (jsonableEntries kvs) = some (_to_jsonable v) := by
          rw [jsonableEntries_eq_map, alookup_map_val, hl]
          rfl
        obtain ⟨htag, hconv⟩ := isImgTag_strip_jsonable v
        by_cases hc : isImgTag (some (_to_jsonable v)) = true
        · have hnds : keysNodup (jsonableEntries (stripEntries kvs)) = true := by
            rw [jsonableEntries_eq_map, stripEntries_eq]
            exact keysNodup_map_val (keysNodup_map_val (keysNodup_filter hnd))
          have hnd2 : keysNodup (jsonableEntries kvs) = true := by
            rw [jsonableEntries_eq_map]
            exact keysNodup_map_val hnd
          rw [_strip_image_urls, _strip_image_urls,
            if_pos (by rw [c1, htag]; exact hc), if_pos (by rw [c2]; exact hc),
            filter_type_eq_singleton hnds c1, filter_type_eq_singleton hnd2 c2,
            hconv hc]
        · rw [_strip_image_urls, _strip_image_urls,
            if_neg (by rw [c1, htag]; exact hc), if_neg (by rw [c2]; exact hc)]
          exact congrArg PyVal.dict hinner

/-- Serializing a pre-sanitized message element equals serializing the
original (well-formed) element. -/
theorem serElem_strip (m : PyVal) (hwf : wf m = true) :
    serElem (_strip_image_urls m) = serElem m := by
  cases m with
  | obj d dm r => rfl
  | none => rfl
  | bool b => rfl
  | int n => rfl
  | str s => rfl
  | list xs =>
    show some (_strip_image_urls (_to_jsonable (_strip_image_urls (.list xs))))
      = some (_strip_image_urls (_to_jsonable (.list xs)))
    rw [strip_jsonable_strip _ hwf]
  | dict kvs =>
    obtain ⟨l', hl'⟩ := strip_dict_shape kvs
    rw [hl']
    show some (_strip_image_urls (_to_jsonable (.dict l')))
      = some (_strip_image_urls (_to_jsonable (.dict kvs)))
    rw [← hl']
    show some (_strip_image_urls (_to_jsonable (_strip_image_urls (.dict kvs))))
      = some (_strip_image_urls (_to_jsonable (.dict kvs)))
    rw [strip_jsonable_strip _ hwf]

/-- The serialization loop is unchanged by pre-sanitizing the messages. -/
theorem serList_strip : ∀ (ms : List PyVal), wfList ms = true →
    serList (stripList ms) = serList ms := by
  intro ms
  induction ms with
  | nil => intro _; rfl
  | cons m t ih =>
    intro h
    rw [wfList, Bool.and_eq_true] at h
    show serList (_strip_image_urls m :: stripList t) = serList (m :: t)
    rw [serList, serList, serElem_strip m h.1, ih h.2]

/-- `_serialize_messages` is unchanged by pre-sanitizing its input: the
structure hashed by `_hash_request` is already the sanitized one. -/
theorem serialize_strip (msgs : PyVal) (hwf : wf msgs = true) :
    _serialize_messages (_strip_image_urls msgs) = _serialize_messages msgs := by
  cases msgs with
  | none => rfl
  | bool b => rfl
  | int n => rfl
  | str s => rfl
  | obj d dm r => rfl
  | list ms =>
    show _serialize_messages (.list (stripList ms)) = _serialize_messages (.list ms)
    rw [_serialize_messages, _serialize_messages, serList_strip ms hwf]
    cases hs : serList ms with
    | some out => rfl
    | none =>
      show _strip_image_urls (_to_jsonable (_strip_image_urls (.list ms)))
        = _strip_image_urls (_to_jsonable (.list ms))
      exact strip_jsonable_strip _ hwf
  | dict kvs =>
    obtain ⟨l', hl'⟩ := strip_dict_shape kvs
    rw [hl']
    show _strip_image_urls (_to_jsonable (.dict l'))
      = _strip_image_urls (_to_jsonable (.dict kvs))
    rw [← hl']
    show _strip_image_urls (_to_jsonable (_strip_image_urls (.dict kvs)))
      = _strip_image_urls (_to_jsonable (.dict kvs))
    exact strip_jsonable_strip _ hwf

/-- C9: the fingerprint is computed over the sanitized message structure —
two well-formed message values with the same sanitization (in particular,
differing only in image payload contents) receive the same fingerprint; the
fingerprint of the original equals that of the pre-stripped messages; and the
messages component of the hashed payload is exactly the sanitized messages
structure that `_write_markdown_log` puts in the persisted request. -/
theorem C9_fingerprint_log_consistency (model : String)
    (kwargs : List (String × PyVal)) (msgs1 msgs2 : PyVal)
    (h1 : wf msgs1 = true) (h2 : wf msgs2 = true)
    (he : _strip_image_urls msgs1 = _strip_image_urls msgs2) :
    _hash_request model msgs1 kwargs = _hash_request model msgs2 kwargs
    ∧ _hash_request model msgs1 kwargs
        = _hash_request model (_strip_image_urls msgs1) kwargs
    ∧ alookup "messages" (hashPayload model msgs1 kwargs)
        = some (_serialize_messages msgs1)
    ∧ ∀ ts ck c u err st et dur kw,
        (_write_markdown_log ts ck model msgs1 kw c u err st et dur).reqMessages
          = _serialize_messages msgs1 := by
  have key : _serialize_messages msgs1 = _serialize_messages msgs2 := by
    rw [← serialize_strip msgs1 h1, ← serialize_strip msgs2 h2, he]
  refine ⟨?_, ?_, rfl, fun _ _ _ _ _ _ _ _ _ => rfl⟩
  · rw [_hash_request, _hash_request, hashPayload, hashPayload, key]
  · rw [_hash_request, _hash_request, hashPayload, hashPayload, serialize_strip msgs1 h1]

/-- Messages with one image payload. -/
def imgMsgsA : PyVal := .list [.dict [("role", .str "user"),
  ("content", .list [.dict [("type", .str "image_url"),
    ("image_url", .str "data:image/png;base64,AAAA")]])]]

/-- The same messages with a different image payload. -/
def imgMsgsB : PyVal := .list [.dict [("role", .str "user"),
  ("content", .list [.dict [("type", .str "image_url"),
    ("image_url", .str "data:image/png;base64,BBBB")]])]]

/-- Witness for C9: two requests differing only in the image payload hash
identically. -/
theorem C9_fingerprint_log_consistency_witness :
    (wf imgMsgsA = true ∧ wf imgMsgsB = true
      ∧ _strip_image_urls imgMsgsA = _strip_image_urls imgMsgsB)
    ∧ _hash_request "gpt-test" imgMsgsA [] = _hash_request "gpt-test" imgMsgsB []
    ∧ alookup "messages" (hashPayload "gpt-test" imgMsgsA [])
        = some (_serialize_messages imgMsgsA) := by
  have h := C9_fingerprint_log_consistency "gpt-test" [] imgMsgsA imgMsgsB rfl rfl rfl
  exact ⟨⟨rfl, rfl, rfl⟩, h.1, h.2.2.1⟩

/-! ### Artifact naming (claim C8) -/

/-- Is a character a lowercase hexadecimal digit? -/
def isHexChar (c : Char) : Bool := "0123456789abcdef".data.contains c

/-- Every nibble renders as a hex character. -/
theorem hexChar_isHex : ∀ m : Nat, m < 16 → isHexChar (Sha256.hexChar m) = true := by
  decide

/-- One word renders as eight characters. -/
theorem wordHex_length (w : Nat) : (Sha256.wordHex w).length = 8 := rfl

/-- One word renders in hex characters only. -/
theorem wordHex_all_hex (w : Nat) : (Sha256.wordHex w).data.all isHexChar = true := by
  rw [show (Sha256.wordHex w).data
      = (List.range 8).map (fun i => Sha256.hexChar (w / 16 ^ (7 - i) % 16)) from rfl]
  rw [List.all_eq_true]
  intro c hc
  obtain ⟨i, _, rfl⟩ := List.mem_map.mp hc
  exact hexChar_isHex _ (Nat.mod_lt _ (by decide))

/-- A sha256 hex digest has exactly 64 characters. -/
theorem sha256hex_length (msg : List Nat) : (Sha256.sha256hex msg).length = 64 := by
  rw [Sha256.sha256hex, Sha256.stHex]
  simp only [String.length_append, wordHex_length]

/-- A sha256 hex digest consists of hex characters only. -/
theorem sha256hex_all_hex (msg : List Nat) :
    (Sha256.sha256hex msg).data.all isHexChar = true := by
  rw [Sha256.sha256hex, Sha256.stHex]
  simp only [String.data_append, List.all_append, wordHex_all_hex, Bool.and_self]

/-- The first eight characters of a 64-character string are eight. -/
theorem take8_length {s : String} (h : s.length = 64) : (s.take 8).length = 8 := by
  have hlen : ∀ t : String, t.length = t.data.length := fun t => rfl
  rw [hlen, String.data_take, List.length_take, ← hlen s, h]
  decide

/-- A prefix of a hex string is hex. -/
theorem take8_all_hex {s : String} (h : s.data.all isHexChar = true) :
    (s.take 8).data.all isHexChar = true := by
  rw [String.data_take, List.all_eq_true]
  intro c hc
  exact List.all_eq_true.mp h c (List.take_subset 8 s.data hc)

/-- C8: the artifact filename is the UTC timestamp at millisecond precision,
the model identifier, and the first 8 characters of the fingerprint, joined
by hyphens, with the fixed `.md` extension; and the fingerprint produced by
`_hash_request` is a 64-character hex digest, so the embedded prefix is 8
hex characters. -/
theorem C8_artifact_naming :
    (∀ ts model ck, logFileName ts model ck
        = formatTs ts ++ "-" ++ model ++ "-" ++ ck.take 8 ++ ".md")
    ∧ (∀ ts ck model msgs kw c u err st et dur,
        (_write_markdown_log ts ck model msgs kw c u err st et dur).fileName
          = logFileName ts model ck)
    ∧ (∀ model msgs kwargs,
        (_hash_request model msgs kwargs).length = 64
        ∧ (_hash_request model msgs kwargs).data.all isHexChar = true
        ∧ ((_hash_request model msgs kwargs).take 8).length = 8
        ∧ ((_hash_request model msgs kwargs).take 8).data.all isHexChar = true) := by
  refine ⟨fun _ _ _ => rfl, fun _ _ _ _ _ _ _ _ _ _ _ => rfl, fun model msgs kwargs => ?_⟩
  have h1 := sha256hex_length (utf8Bytes (dumpVal (.dict (hashPayload model msgs kwargs))))
  have h2 := sha256hex_all_hex (utf8Bytes (dumpVal (.dict (hashPayload model msgs kwargs))))
  exact ⟨h1, h2, take8_length h1, take8_all_hex h2⟩

/-! ### Invocation paths (claims C1, C5, C6) -/

/-- A concrete wall-clock instant. -/
def tsEx : Timestamp := ⟨2026, 10, 12, 15, 30, 0, 123456⟩

/-- A concrete inner client. -/
def clientEx : InnerClient := ⟨some "openai", some "gpt-test", some "gpt-test", some "gpt-test"⟩

/-- A concrete successful inner result. -/
def resEx : InvokeRes := ⟨PyVal.none, .str "hi there"⟩

/-- An environment in which every log write succeeds. -/
def envOkWrite : Env String :=
  { strE := id, eDump := "dump raised", w1 := Option.none, w2 := Option.none,
    t1 := tsEx, t2 := tsEx, startTime := "2026-10-12T15:29:59+00:00",
    endTime := "2026-10-12T15:30:00+00:00",
    endTimeErr := "2026-10-12T15:30:00+00:00", durationMs := some 850 }

/-- An environment whose log directory is unwritable for the first write
attempt but writable for the second. -/
def envFailFirstWrite : Env String :=
  { strE := id, eDump := "dump raised",
    w1 := some "PermissionError: unwritable log dir", w2 := Option.none,
    t1 := tsEx, t2 := tsEx, startTime := "2026-10-12T15:29:59+00:00",
    endTime := "2026-10-12T15:30:00+00:00",
    endTimeErr := "2026-10-12T15:30:00+00:00", durationMs := some 850 }

/-- An environment whose log directory is unwritable throughout. -/
def envFailBothWrites : Env String :=
  { strE := id, eDump := "dump raised",
    w1 := some "PermissionError: unwritable log dir",
    w2 := some "PermissionError: unwritable log dir (retry)",
    t1 := tsEx, t2 := tsEx, startTime := "2026-10-12T15:29:59+00:00",
    endTime := "2026-10-12T15:30:00+00:00",
    endTimeErr := "2026-10-12T15:30:00+00:00", durationMs := some 850 }

/-- C1 (code bug, lines 219 and 225 are unguarded): when the inner call
succeeds but the log write raises, `ainvoke` does *not* return the inner
result — the logging exception is caught by the `except` block and re-raised
(here the error-path write succeeds, so an artifact even exists), replacing
the real outcome.  The spec requires the original result to still propagate. -/
theorem C1_persistence_failure_replaces_outcome :
    (ainvoke envFailFirstWrite clientEx (.str "hello") (.ok resEx)).outcome
        = Except.error "PermissionError: unwritable log dir"
    ∧ (ainvoke envFailFirstWrite clientEx (.str "hello") (.ok resEx)).outcome
        ≠ Except.ok resEx
    ∧ (ainvoke envFailFirstWrite clientEx (.str "hello") (.ok resEx)).logs.length = 1 := by
  refine ⟨rfl, ?_, rfl⟩
  intro h
  rw [show (ainvoke envFailFirstWrite clientEx (.str "hello") (.ok resEx)).outcome
      = Except.error "PermissionError: unwritable log dir" from rfl] at h
  exact Except.noConfusion h

/-- C5 (amended): when the inner call fails *and the error-path log write
succeeds*, exactly one artifact is written, its response section has `None`
content and usage and the error's string representation, and the original
error object is re-raised unchanged. -/
theorem C5_failure_path_postcondition (E : Type) (env : Env E)
    (client : InnerClient) (messages : PyVal) (e : E)
    (hw : env.w1 = Option.none) :
    (ainvoke env client messages (.error e)).outcome = Except.error e
    ∧ (ainvoke env client messages (.error e)).logs.length = 1
    ∧ ∀ rec ∈ (ainvoke env client messages (.error e)).logs,
        rec.respContent = PyVal.none ∧ rec.respUsage = PyVal.none
          ∧ rec.respError = some (env.strE e) := by
  have hred : ainvoke env client messages (.error e)
      = exceptBlock env env.t1 env.w1
          (_hash_request (wrapperModelName client) messages [])
          (wrapperModelName client) messages e := rfl
  rw [hred, hw, exceptBlock]
  refine ⟨rfl, rfl, ?_⟩
  intro rec hrec
  rw [List.mem_singleton] at hrec
  rw [hrec]
  exact ⟨rfl, rfl, rfl⟩

/-- Witness for C5 at a concrete failing call with a writable log directory. -/
theorem C5_failure_path_postcondition_witness :
    envOkWrite.w1 = Option.none
    ∧ (ainvoke envOkWrite clientEx (.str "hello") (.error "boom")).outcome
        = Except.error "boom"
    ∧ (ainvoke envOkWrite clientEx (.str "hello") (.error "boom")).logs.length = 1 := by
  have h := C5_failure_path_postcondition String envOkWrite clientEx (.str "hello") "boom" rfl
  exact ⟨rfl, h.1, h.2.1⟩

/-- C5 counterexample: with an unwritable log directory, a failing inner
call produces *no* artifact and the caller receives the write exception, not
the original error — the claim as stated (for every invocation) is false. -/
theorem C5_counterexample_unwritable_dir :
    (ainvoke envFailFirstWrite clientEx (.str "hello") (.error "boom")).logs = []
    ∧ (ainvoke envFailFirstWrite clientEx (.str "hello") (.error "boom")).outcome
        = Except.error "PermissionError: unwritable log dir" :=
  ⟨rfl, rfl⟩

/-- C6 (amended): when the inner call succeeds, the usage/completion
extraction does not raise, *and the log write succeeds*, exactly one
artifact is written, its response error field is `None`, its content is the
best-effort JSON conversion of the (preprocessed) completion, its usage
likewise, and the identical inner result object is returned unchanged. -/
theorem C6_success_path_postcondition (E : Type) (env : Env E)
    (client : InnerClient) (messages : PyVal) (r : InvokeRes)
    (usage completion : PyVal)
    (hu : extractUsage r.usage = .ok usage)
    (hc : extractCompletion r.completion = .ok completion)
    (hw : env.w1 = Option.none) :
    (ainvoke env client messages (.ok r)).outcome = Except.ok r
    ∧ (ainvoke env client messages (.ok r)).logs.length = 1
    ∧ ∀ rec ∈ (ainvoke env client messages (.ok r)).logs,
        rec.respError = Option.none
        ∧ rec.respContent = _to_jsonable completion
        ∧ rec.respUsage = _to_jsonable usage := by
  rw [ainvoke, hu, hc, hw]
  refine ⟨rfl, rfl, ?_⟩
  intro rec hrec
  rw [List.mem_singleton] at hrec
  rw [hrec]
  exact ⟨rfl, rfl, rfl⟩

/-- Witness for C6 at a concrete successful call with a writable log
directory. -/
theorem C6_success_path_postcondition_witness :
    (ainvoke envOkWrite clientEx (.str "hello") (.ok resEx)).outcome = Except.ok resEx
    ∧ (ainvoke envOkWrite clientEx (.str "hello") (.ok resEx)).logs.length = 1 := by
  have h := C6_success_path_postcondition String envOkWrite clientEx (.str "hello")
    resEx PyVal.none (.str "hi there") rfl rfl rfl
  exact ⟨h.1, h.2.1⟩

/-- C6 counterexample: with an unwritable log directory, a successful inner
call produces *no* artifact and the caller receives an exception instead of
the result — the claim as stated (for every invocation) is false. -/
theorem C6_counterexample_unwritable_dir :
    (ainvoke envFailBothWrites clientEx (.str "hello") (.ok resEx)).logs = []
    ∧ (ainvoke envFailBothWrites clientEx (.str "hello") (.ok resEx)).outcome
        = Except.error "PermissionError: unwritable log dir (retry)" :=
  ⟨rfl, rfl⟩
